import Mathlib

/-
  Shallow embedding of the codechu/flow-core-validation repository.

  The repository is interface-only TypeScript; its executable content is the
  set of concrete example classes in the README (EmailValidator,
  NumberRangeValidator, StringValidationPipeline, ConditionalEmailValidator,
  UserSchema) and the mock implementations in src/test/validation.test.ts
  (TestValidator, TestSchema, TestValidationPipeline, TestConditionalValidator,
  TestValidationBuilder).  Every method in the source is an async function that
  immediately resolves to a value; the Promise layer is erased here and each
  method is modelled as the pure function computing its resolved value.
  Mutable object state (a class's private fields) is modelled by explicit state
  passing: each method takes the state it reads and returns the state it
  leaves behind.
-/

namespace FlowCoreValidation

/-- FlowError models the structured error produced by the external
flow-core-seed helper, as used by the repository:
flowError(code, message) and flowError(code, message, cause). -/
structure FlowError where
  code : String
  message : String
  cause : Option String := none
deriving DecidableEq

/-- FlowResult models the external result-wrapping convention of
flow-core-seed described in spec section 6: a success carrying a value or a
failure carrying a structured error.  Expected validation failure is a
first-class return value, never an exception, so validate methods are total
functions into this type. -/
inductive FlowResult (α : Type) where
  | success : α → FlowResult α
  | failure : FlowError → FlowResult α
deriving DecidableEq

/-- The flowError helper of flow-core-seed, two-argument form. -/
def flowError (code message : String) : FlowError :=
  { code := code, message := message, cause := none }

/-- The flowError helper with a third cause argument, as used by
NumberRangeValidator (the RangeError message is kept as the cause string). -/
def flowErrorWithCause (code message cause : String) : FlowError :=
  { code := code, message := message, cause := some cause }

/-- IFlowContext models the external base execution context of
flow-core-seed.  The repository's validators receive it but the concrete
implementations never read it; a key-value data map is enough to distinguish
contexts. -/
structure IFlowContext where
  data : List (String × String) := []
deriving DecidableEq

/-- IFlowValidator, from the interface source in the repository: id, name,
optional description, and a validate operation from input and context to a
FlowResult. -/
structure IFlowValidator (TInput TOutput : Type) where
  id : String
  name : String
  description : Option String := none
  validate : TInput → IFlowContext → FlowResult TOutput

/-- JS String.prototype.toLowerCase restricted to the character-wise case
mapping Lean provides (sufficient for the repository's ASCII-only inputs). -/
def toLowerCase (s : String) : String :=
  String.mk (s.data.map Char.toLower)

/-- JS String.prototype.toUpperCase, character-wise. -/
def toUpperCase (s : String) : String :=
  String.mk (s.data.map Char.toUpper)

/-- JS String.prototype.trim: remove whitespace from both ends. -/
def trimStr (s : String) : String :=
  String.mk (((s.data.dropWhile Char.isWhitespace).reverse.dropWhile Char.isWhitespace).reverse)

/-- Character class of the regex fragment [^\s@]: not whitespace and not
the at sign. -/
def emailChar (c : Char) : Bool :=
  !c.isWhitespace && c != '@'

/-- After the at sign, the regex [^\s@]+\.[^\s@]+ demands a dot that is
neither the first nor the last character of the domain part (the pieces on
either side of that dot may themselves contain dots, since the class
[^\s@] admits them). -/
def domainHasInteriorDot (l : List Char) : Bool :=
  ((l.drop 1).dropLast).contains '.'

/-- EmailValidator's regex test for /^[^\s@]+@[^\s@]+\.[^\s@]+$/ : a
nonempty run of non-space non-at characters, one at sign, then a domain of
non-space non-at characters containing an interior dot.  Because the class
[^\s@] excludes the at sign, the split at the first at sign is the only
possible one, so this deterministic check is equivalent to the regex. -/
def emailRegexTest (s : String) : Bool :=
  let l := s.data
  let a := l.takeWhile (fun c => c != '@')
  match l.dropWhile (fun c => c != '@') with
  | '@' :: rest =>
      !a.isEmpty && a.all emailChar && rest.all emailChar && domainHasInteriorDot rest
  | _ => false

/-- EmailValidator from the README: lowercases a string passing the email
regex, otherwise fails with INVALID_EMAIL. -/
def emailValidator : IFlowValidator String String :=
  { id := "email-validator"
    name := "Email Validation"
    validate := fun input _ =>
      if emailRegexTest input then FlowResult.success (toLowerCase input)
      else FlowResult.failure (flowError "INVALID_EMAIL" "Invalid email format") }

/-- NumberRangeValidator from the README, parametrised by its constructor
arguments min and max. -/
def NumberRangeValidator (min max : Int) : IFlowValidator Int Int :=
  { id := "range-" ++ toString min ++ "-" ++ toString max
    name := "Number Range Validator (" ++ toString min ++ "-" ++ toString max ++ ")"
    validate := fun input _ =>
      if min ≤ input ∧ input ≤ max then FlowResult.success input
      else FlowResult.failure (flowErrorWithCause "OUT_OF_RANGE"
        ("Number " ++ toString input ++ " not in range " ++ toString min ++ "-" ++ toString max)
        ("Expected " ++ toString min ++ "-" ++ toString max ++ ", got " ++ toString input)) }

/-- TestValidator from the test suite: always succeeds with the uppercased
input. -/
def testValidator : IFlowValidator String String :=
  { id := "test-validator"
    name := "Test Validator"
    description := some "A test validator"
    validate := fun input _ => FlowResult.success (toUpperCase input) }

/-- The record returned by getPipelineInfo: validator count and identifiers
in attachment order. -/
structure PipelineInfo where
  validatorCount : Nat
  validatorIds : List String
deriving DecidableEq

namespace StringValidationPipeline

/-- StringValidationPipeline.addValidator from the README: pushes the
validator onto the private validators array.  The mutable array is the
explicit state. -/
def addValidator (validators : List (IFlowValidator String String))
    (validator : IFlowValidator String String) : List (IFlowValidator String String) :=
  validators ++ [validator]

/-- StringValidationPipeline.validatePipeline from the README: iterate the
attached validators in order, threading each success value into the next
validator, returning the first failure unchanged, and wrapping the final
value in a success. -/
def validatePipeline : List (IFlowValidator String String) → String → IFlowContext →
    FlowResult String
  | [], current, _ => FlowResult.success current
  | validator :: rest, current, context =>
      match validator.validate current context with
      | FlowResult.failure e => FlowResult.failure e
      | FlowResult.success value => validatePipeline rest value context

/-- StringValidationPipeline.getPipelineInfo from the README: length of the
validators array and the map of validator ids. -/
def getPipelineInfo (validators : List (IFlowValidator String String)) : PipelineInfo :=
  { validatorCount := validators.length
    validatorIds := validators.map (fun v => v.id) }

end StringValidationPipeline

namespace TestValidationPipeline

/-- TestValidationPipeline.addValidator from the test suite: identical to the
README pipeline, pushes onto the validators array. -/
def addValidator (validators : List (IFlowValidator String String))
    (validator : IFlowValidator String String) : List (IFlowValidator String String) :=
  validators ++ [validator]

/-- TestValidationPipeline.validatePipeline from the test suite: returns
success(input) without consulting the attached validators at all. -/
def validatePipeline (_validators : List (IFlowValidator String String))
    (input : String) (_context : IFlowContext) : FlowResult String :=
  FlowResult.success input

/-- TestValidationPipeline.getPipelineInfo from the test suite: length of the
validators array and the map of validator ids. -/
def getPipelineInfo (validators : List (IFlowValidator String String)) : PipelineInfo :=
  { validatorCount := validators.length
    validatorIds := validators.map (fun v => v.id) }

end TestValidationPipeline

/-
  Reference semantics of addValidator.  Both pipeline classes implement
  addValidator as "this.validators.push(validator); return this": the
  returned pipeline is the very same object as the receiver.  To state this
  aliasing behaviour, pipelines are modelled as references (natural numbers)
  into a store mapping each reference to that pipeline's validators array;
  addValidator updates the store at the receiver's reference and returns the
  receiver's reference itself.
-/

/-- A store of pipeline objects: each reference holds its validators array. -/
abbrev PipelineStore := Nat → List (IFlowValidator String String)

/-- addValidator on a pipeline reference: push onto the referenced validators
array (store update) and return this (the same reference). -/
def addValidatorRef (r : Nat) (validator : IFlowValidator String String)
    (σ : PipelineStore) : Nat × PipelineStore :=
  (r, Function.update σ r (σ r ++ [validator]))

/-- getPipelineInfo read through a pipeline reference. -/
def getPipelineInfoRef (r : Nat) (σ : PipelineStore) : PipelineInfo :=
  { validatorCount := (σ r).length
    validatorIds := (σ r).map (fun v => v.id) }

namespace TestConditionalValidator

/-- TestConditionalValidator.shouldValidate from the test suite: the input
has positive length. -/
def shouldValidate (input : String) (_context : IFlowContext) : Bool :=
  input.length > 0

/-- TestConditionalValidator.validateConditionally from the test suite:
awaits the predicate; on true returns success of the trimmed input, on false
returns success of the input. -/
def validateConditionally (input : String) (context : IFlowContext) : FlowResult String :=
  let should := shouldValidate input context
  if should then FlowResult.success (trimStr input)
  else FlowResult.success input

end TestConditionalValidator

namespace ConditionalEmailValidator

/-- ConditionalEmailValidator.shouldValidate from the README: the input
contains an at sign. -/
def shouldValidate (input : String) (_context : IFlowContext) : Bool :=
  input.data.contains '@'

/-- ConditionalEmailValidator.validateConditionally from the README: if the
predicate holds, delegate to a fresh EmailValidator; otherwise pass the input
through unchanged as a success. -/
def validateConditionally (input : String) (context : IFlowContext) : FlowResult String :=
  if shouldValidate input context then emailValidator.validate input context
  else FlowResult.success input

end ConditionalEmailValidator

namespace TestValidationBuilder

/-- TestValidationBuilder.required from the test suite: push the literal
string onto the private rules array (the builder's state) and return this. -/
def required (rules : List String) : List String :=
  rules ++ ["required"]

/-- TestValidationBuilder.type from the test suite: push a tagged rule
string. -/
def type (rules : List String) (expectedType : String) : List String :=
  rules ++ ["type:" ++ expectedType]

/-- TestValidationBuilder.custom from the test suite: push a rule string
tagged with the validator's id. -/
def custom (rules : List String) (validator : IFlowValidator String String) : List String :=
  rules ++ ["custom:" ++ validator.id]

/-- TestValidationBuilder.build from the test suite: returns a fresh
TestValidator, independent of the accumulated rules array. -/
def build (_rules : List String) : IFlowValidator String String :=
  testValidator

end TestValidationBuilder

/-- A JSON-like open value type, modelling both the TS type
Record of string to unknown (rule metadata) and the values a consumer's
serialization deals with. -/
inductive Json where
  | null : Json
  | bool : Bool → Json
  | num : Int → Json
  | str : String → Json
  | arr : List Json → Json
  | obj : List (String × Json) → Json

namespace TestSchema

/-- TestSchema.validateSchema from the test suite: succeeds with the input
unchanged. -/
def validateSchema {σ : Type} (input : Json) (_context : IFlowContext) (s : σ) :
    FlowResult Json × σ :=
  (FlowResult.success input, s)

/-- TestSchema.getSchemaRules from the test suite: returns the literal
object with a type tag and an empty required array, touching no state.
The state parameter makes the frame property statable. -/
def getSchemaRules {σ : Type} (s : σ) : Json × σ :=
  (Json.obj [("type", Json.str "object"), ("required", Json.arr [])], s)

end TestSchema

namespace UserSchema

/-- UserSchema.getSchemaRules from the README: returns the literal nested
rules object, touching no state. -/
def getSchemaRules {σ : Type} (s : σ) : Json × σ :=
  (Json.obj
    [("type", Json.str "object"),
     ("properties", Json.obj
       [("name", Json.obj [("type", Json.str "string"), ("required", Json.bool true)]),
        ("email", Json.obj
          [("type", Json.str "string"), ("format", Json.str "email"),
           ("required", Json.bool true)]),
        ("age", Json.obj
          [("type", Json.str "number"), ("minimum", Json.num 0),
           ("maximum", Json.num 150)])])], s)

end UserSchema

/-- IFlowValidationRule from the interface source: id, name, an open type
tag, a parameter mapping and an optional error-message template. -/
structure IFlowValidationRule where
  id : String
  name : String
  type : String
  parameters : List (String × Json)
  errorMessage : Option String := none

/-- IFlowValidationError from the interface source: code, message, optional
field locator, optional expected and actual values, optional violated rule
and optional context mapping. -/
structure IFlowValidationError where
  code : String
  message : String
  field : Option String := none
  expected : Option Json := none
  actual : Option Json := none
  rule : Option IFlowValidationRule := none
  context : Option (List (String × Json)) := none

/-- The metadata block of IFlowValidationResult: validator id, optional
execution time, and the ordered list of applied rule ids. -/
structure ValidationMetadata where
  validatorId : String
  executionTime : Option Int := none
  rulesApplied : List String

/-- IFlowValidationResult from the interface source: validity flag, optional
output data, error and warning sequences, and metadata.  The data field is a
plain optional member: its presence is not tied to isValid by the type
itself. -/
structure IFlowValidationResult (TOutput : Type) where
  isValid : Bool
  data : Option TOutput := none
  errors : List IFlowValidationError
  warnings : List IFlowValidationError
  metadata : ValidationMetadata

/-
  Serialization, modelled from the spec: the repository itself contains no
  serializer; spec section 8 speaks of "any serialization a consumer
  performs" of the validation-result shape.  The consumer-side round trip is
  modelled as a canonical JSON encoding of IFlowValidationResult over string
  data, together with a strict decoder.
-/

/-- Modelled from the spec: JSON encoding of an optional string field, null
when absent. -/
def encodeOptionStr : Option String → Json
  | none => Json.null
  | some s => Json.str s

/-- Modelled from the spec: JSON encoding of an optional integer field. -/
def encodeOptionInt : Option Int → Json
  | none => Json.null
  | some n => Json.num n

/-- Modelled from the spec: JSON encoding of an optional JSON field. -/
def encodeOptionJson : Option Json → Json
  | none => Json.null
  | some j => j

/-- Modelled from the spec: JSON encoding of a validation rule. -/
def encodeRule (r : IFlowValidationRule) : Json :=
  Json.obj
    [("id", Json.str r.id), ("name", Json.str r.name), ("type", Json.str r.type),
     ("parameters", Json.obj r.parameters),
     ("errorMessage", encodeOptionStr r.errorMessage)]

/-- Modelled from the spec: JSON encoding of a validation error. -/
def encodeError (e : IFlowValidationError) : Json :=
  Json.obj
    [("code", Json.str e.code), ("message", Json.str e.message),
     ("field", encodeOptionStr e.field),
     ("expected", encodeOptionJson e.expected),
     ("actual", encodeOptionJson e.actual),
     ("rule", match e.rule with
       | none => Json.null
       | some r => encodeRule r),
     ("context", match e.context with
       | none => Json.null
       | some m => Json.obj m)]

/-- Modelled from the spec: JSON encoding of the result metadata block. -/
def encodeMetadata (m : ValidationMetadata) : Json :=
  Json.obj
    [("validatorId", Json.str m.validatorId),
     ("executionTime", encodeOptionInt m.executionTime),
     ("rulesApplied", Json.arr (m.rulesApplied.map Json.str))]

/-- Modelled from the spec: JSON encoding of a validation result carrying
string data. -/
def encodeResult (r : IFlowValidationResult String) : Json :=
  Json.obj
    [("isValid", Json.bool r.isValid),
     ("data", encodeOptionStr r.data),
     ("errors", Json.arr (r.errors.map encodeError)),
     ("warnings", Json.arr (r.warnings.map encodeError)),
     ("metadata", encodeMetadata r.metadata)]

/-- Strict decoder for an optional string field. -/
def decodeOptionStr : Json → Option (Option String)
  | Json.null => some none
  | Json.str s => some (some s)
  | _ => none

/-- Strict decoder for an optional integer field. -/
def decodeOptionInt : Json → Option (Option Int)
  | Json.null => some none
  | Json.num n => some (some n)
  | _ => none

/-- Strict decoder for a string. -/
def decodeStr : Json → Option String
  | Json.str s => some s
  | _ => none

/-- Element-wise strict decoding of a JSON array's members. -/
def decodeList {α : Type} (dec : Json → Option α) : List Json → Option (List α)
  | [] => some []
  | j :: rest => do
      let a ← dec j
      let as ← decodeList dec rest
      some (a :: as)

/-- Strict decoder for a validation rule. -/
def decodeRule : Json → Option IFlowValidationRule
  | Json.obj
      [("id", Json.str i), ("name", Json.str n), ("type", Json.str t),
       ("parameters", Json.obj ps), ("errorMessage", em)] => do
      let em' ← decodeOptionStr em
      some { id := i, name := n, type := t, parameters := ps, errorMessage := em' }
  | _ => none

/-- Strict decoder for a validation error. -/
def decodeError : Json → Option IFlowValidationError
  | Json.obj
      [("code", Json.str c), ("message", Json.str m), ("field", f),
       ("expected", ex), ("actual", ac), ("rule", ru), ("context", cx)] => do
      let f' ← decodeOptionStr f
      let ex' := match ex with
        | Json.null => none
        | j => some j
      let ac' := match ac with
        | Json.null => none
        | j => some j
      let ru' ← match ru with
        | Json.null => some none
        | j => (decodeRule j).map some
      let cx' ← match cx with
        | Json.null => some none
        | Json.obj ps => some (some ps)
        | _ => none
      some { code := c, message := m, field := f', expected := ex', actual := ac',
             rule := ru', context := cx' }
  | _ => none

/-- Strict decoder for the result metadata block. -/
def decodeMetadata : Json → Option ValidationMetadata
  | Json.obj
      [("validatorId", Json.str v), ("executionTime", et),
       ("rulesApplied", Json.arr rs)] => do
      let et' ← decodeOptionInt et
      let rs' ← decodeList decodeStr rs
      some { validatorId := v, executionTime := et', rulesApplied := rs' }
  | _ => none

/-- Strict decoder for a validation result carrying string data. -/
def decodeResult : Json → Option (IFlowValidationResult String)
  | Json.obj
      [("isValid", Json.bool b), ("data", d), ("errors", Json.arr es),
       ("warnings", Json.arr ws), ("metadata", m)] => do
      let d' ← decodeOptionStr d
      let es' ← decodeList decodeError es
      let ws' ← decodeList decodeError ws
      let m' ← decodeMetadata m
      some { isValid := b, data := d', errors := es', warnings := ws', metadata := m' }
  | _ => none

/-- An empty concrete execution context, as built by createMockContext in the
test suite (only the data map is observable to the modelled code). -/
def ctx0 : IFlowContext := { data := [] }

/-- Exactly-one-outcome property of a validation result: it is a success
with an output and not a failure, or a failure with an error and not a
success. -/
def exactlyOneOutcome {α : Type} (r : FlowResult α) : Prop :=
  ((∃ o, r = FlowResult.success o) ∧ ¬ ∃ e, r = FlowResult.failure e)
  ∨ ((∃ e, r = FlowResult.failure e) ∧ ¬ ∃ o, r = FlowResult.success o)

/-- Every FlowResult value has exactly one outcome. -/
theorem flowResult_exactlyOne {α : Type} (r : FlowResult α) : exactlyOneOutcome r := by
  cases r with
  | success o =>
      exact Or.inl ⟨⟨o, rfl⟩, fun ⟨e, h⟩ => FlowResult.noConfusion h⟩
  | failure e =>
      exact Or.inr ⟨⟨e, rfl⟩, fun ⟨o, h⟩ => FlowResult.noConfusion h⟩

/-- Running the README pipeline on a concatenation first runs the prefix;
its success value seeds the suffix, and its failure is final. -/
theorem validatePipeline_append (l1 l2 : List (IFlowValidator String String))
    (input : String) (context : IFlowContext) :
    StringValidationPipeline.validatePipeline (l1 ++ l2) input context =
      match StringValidationPipeline.validatePipeline l1 input context with
      | FlowResult.success mid => StringValidationPipeline.validatePipeline l2 mid context
      | FlowResult.failure e => FlowResult.failure e := by
  induction l1 generalizing input with
  | nil => simp [StringValidationPipeline.validatePipeline]
  | cons v rest ih =>
      simp only [List.cons_append, StringValidationPipeline.validatePipeline]
      cases v.validate input context with
      | success value => simpa using ih value
      | failure e => rfl

/-- Decoding an encoded list of strings recovers the list. -/
theorem decodeList_decodeStr (l : List String) :
    decodeList decodeStr (l.map Json.str) = some l := by
  induction l with
  | nil => rfl
  | cons a rest ih => simp [decodeList, decodeStr, ih]

/-- Decoding encoded result metadata recovers the metadata. -/
theorem decodeMetadata_encodeMetadata (m : ValidationMetadata) :
    decodeMetadata (encodeMetadata m) = some m := by
  cases m with
  | mk v et rs =>
      cases et <;>
        simp [encodeMetadata, decodeMetadata, encodeOptionInt, decodeOptionInt,
          decodeList_decodeStr]

/-- A well-typed result value carrying data while flagged invalid. -/
def sampleInvalidWithData : IFlowValidationResult String :=
  { isValid := false
    data := some "x"
    errors := []
    warnings := []
    metadata := { validatorId := "m", rulesApplied := [] } }

/-- The result value constructed in the test suite's IFlowValidationResult
test. -/
def testSuiteResult : IFlowValidationResult String :=
  { isValid := true
    data := some "validated-data"
    errors := []
    warnings := []
    metadata := { validatorId := "test-validator", executionTime := some 10,
                  rulesApplied := ["required", "type-check"] } }

/-- A pass-through validator carrying the id a, for the attachment-order
example. -/
def vA : IFlowValidator String String :=
  { id := "a", name := "A", validate := fun s _ => FlowResult.success s }

/-- A pass-through validator carrying the id b. -/
def vB : IFlowValidator String String :=
  { id := "b", name := "B", validate := fun s _ => FlowResult.success s }

/-- C1, counterexample: the claim quantifies over every pipeline
implementation, but TestValidationPipeline's validatePipeline ignores the
attached validators: with the failing emailValidator attached and the input
"nope" on which it fails, the pipeline still returns success("nope") rather
than the validator's failure. -/
theorem testPipeline_ignores_attached_validators :
    TestValidationPipeline.validatePipeline [emailValidator] "nope" ctx0 =
      FlowResult.success "nope"
    ∧ emailValidator.validate "nope" ctx0 =
      FlowResult.failure (flowError "INVALID_EMAIL" "Invalid email format")
    ∧ TestValidationPipeline.validatePipeline [emailValidator] "nope" ctx0 ≠
      FlowResult.failure (flowError "INVALID_EMAIL" "Invalid email format") :=
  ⟨rfl, by decide, by decide⟩

/-- C1, amended: for StringValidationPipeline (the README implementation),
validatePipeline runs the attached validators in attachment order feeding
each success output onward; the first validator that fails makes the
pipeline return that exact failure, whatever validators follow; appending a
succeeding validator to an all-succeeding prefix yields success with that
last validator's output. -/
theorem stringPipeline_runs_in_order_and_shortcircuits :
    (∀ (l1 : List (IFlowValidator String String)) (v : IFlowValidator String String)
       (l2 : List (IFlowValidator String String)) (input mid : String)
       (context : IFlowContext) (e : FlowError),
       StringValidationPipeline.validatePipeline l1 input context = FlowResult.success mid →
       v.validate mid context = FlowResult.failure e →
       StringValidationPipeline.validatePipeline (l1 ++ v :: l2) input context =
         FlowResult.failure e)
    ∧ (∀ (l1 : List (IFlowValidator String String)) (v : IFlowValidator String String)
       (input mid out : String) (context : IFlowContext),
       StringValidationPipeline.validatePipeline l1 input context = FlowResult.success mid →
       v.validate mid context = FlowResult.success out →
       StringValidationPipeline.validatePipeline (l1 ++ [v]) input context =
         FlowResult.success out) := by
  constructor
  · intro l1 v l2 input mid context e h1 h2
    rw [validatePipeline_append, h1]
    simp [StringValidationPipeline.validatePipeline, h2]
  · intro l1 v input mid out context h1 h2
    rw [validatePipeline_append, h1]
    simp [StringValidationPipeline.validatePipeline, h2]

/-- C1, witness: a three-stage pipeline whose middle validator fails on the
uppercased value produced by the first stage returns exactly that failure. -/
theorem stringPipeline_shortcircuit_witness :
    StringValidationPipeline.validatePipeline
      ([testValidator] ++ emailValidator :: [testValidator]) "hi" ctx0 =
      FlowResult.failure (flowError "INVALID_EMAIL" "Invalid email format") :=
  stringPipeline_runs_in_order_and_shortcircuits.1 [testValidator] emailValidator
    [testValidator] "hi" "HI" ctx0 (flowError "INVALID_EMAIL" "Invalid email format")
    (by decide) (by decide)

/-- C2: for both conditional validators, a false predicate passes the input
through unchanged as a success and a true predicate yields exactly the
wrapped validation's result; in particular the test-suite conditional
validator maps the empty string to success of the unchanged empty string and
the string consisting of x between spaces to success of the trimmed x. -/
theorem validateConditionally_pass_through_or_wrapped :
    (∀ (input : String) (context : IFlowContext),
       TestConditionalValidator.shouldValidate input context = false →
       TestConditionalValidator.validateConditionally input context =
         FlowResult.success input)
    ∧ (∀ (input : String) (context : IFlowContext),
       TestConditionalValidator.shouldValidate input context = true →
       TestConditionalValidator.validateConditionally input context =
         FlowResult.success (trimStr input))
    ∧ (∀ (input : String) (context : IFlowContext),
       ConditionalEmailValidator.shouldValidate input context = false →
       ConditionalEmailValidator.validateConditionally input context =
         FlowResult.success input)
    ∧ (∀ (input : String) (context : IFlowContext),
       ConditionalEmailValidator.shouldValidate input context = true →
       ConditionalEmailValidator.validateConditionally input context =
         emailValidator.validate input context)
    ∧ (∀ context : IFlowContext,
       TestConditionalValidator.validateConditionally "" context = FlowResult.success "")
    ∧ (∀ context : IFlowContext,
       TestConditionalValidator.validateConditionally " x " context =
         FlowResult.success "x") := by
  refine ⟨?_, ?_, ?_, ?_, ?_, ?_⟩
  · intro input context h
    simp [TestConditionalValidator.validateConditionally, h]
  · intro input context h
    simp [TestConditionalValidator.validateConditionally, h]
  · intro input context h
    simp [ConditionalEmailValidator.validateConditionally, h]
  · intro input context h
    simp [ConditionalEmailValidator.validateConditionally, h]
  · intro context
    rfl
  · intro context
    rfl

/-- C2, witness: the false branch at the empty string and the true branch at
a concrete address agree with the claim. -/
theorem validateConditionally_witness :
    TestConditionalValidator.validateConditionally "" ctx0 = FlowResult.success ""
    ∧ ConditionalEmailValidator.validateConditionally "a@b.c" ctx0 =
        emailValidator.validate "a@b.c" ctx0 :=
  ⟨validateConditionally_pass_through_or_wrapped.1 "" ctx0 (by decide),
   validateConditionally_pass_through_or_wrapped.2.2.2.1 "a@b.c" ctx0 (by decide)⟩

/-- C3, counterexample: build ignores the accumulated rules array: building
after declaring required and type string yields the very same validator as
building with no declared rules, and that validator accepts the empty input
even though required was declared. -/
theorem build_independent_of_declared_rules :
    TestValidationBuilder.build
        (TestValidationBuilder.type (TestValidationBuilder.required []) "string") =
      TestValidationBuilder.build []
    ∧ (TestValidationBuilder.build
        (TestValidationBuilder.type (TestValidationBuilder.required []) "string")).validate
        "" ctx0 = FlowResult.success "" :=
  ⟨rfl, by decide⟩

/-- C3, amended: the fluent calls required and type accumulate exactly the
rule strings required and type:string in declaration order in the builder's
rules array, but build returns the fixed TestValidator, independent of the
accumulated rules, whose validate uppercases every input. -/
theorem builder_accumulates_rules_build_returns_fixed_validator :
    TestValidationBuilder.type (TestValidationBuilder.required []) "string" =
      ["required", "type:string"]
    ∧ (∀ rules : List String, TestValidationBuilder.build rules = testValidator)
    ∧ testValidator.id = "test-validator"
    ∧ (∀ (input : String) (context : IFlowContext),
        (TestValidationBuilder.build
          (TestValidationBuilder.type (TestValidationBuilder.required []) "string")).validate
          input context = FlowResult.success (toUpperCase input)) :=
  ⟨rfl, fun _ => rfl, rfl, fun _ _ => rfl⟩

/-- C4: for both pipeline implementations, addValidator makes
getPipelineInfo report a count larger by exactly one with the new
validator's id appended at the end, and from the empty pipeline adding ids a
then b yields the id list a, b in that order. -/
theorem getPipelineInfo_reflects_addValidator :
    (∀ (validators : List (IFlowValidator String String))
       (v : IFlowValidator String String),
       (StringValidationPipeline.getPipelineInfo
          (StringValidationPipeline.addValidator validators v)).validatorCount =
         (StringValidationPipeline.getPipelineInfo validators).validatorCount + 1
       ∧ (StringValidationPipeline.getPipelineInfo
          (StringValidationPipeline.addValidator validators v)).validatorIds =
         (StringValidationPipeline.getPipelineInfo validators).validatorIds ++ [v.id])
    ∧ (∀ (validators : List (IFlowValidator String String))
       (v : IFlowValidator String String),
       (TestValidationPipeline.getPipelineInfo
          (TestValidationPipeline.addValidator validators v)).validatorCount =
         (TestValidationPipeline.getPipelineInfo validators).validatorCount + 1
       ∧ (TestValidationPipeline.getPipelineInfo
          (TestValidationPipeline.addValidator validators v)).validatorIds =
         (TestValidationPipeline.getPipelineInfo validators).validatorIds ++ [v.id])
    ∧ (TestValidationPipeline.getPipelineInfo
        (TestValidationPipeline.addValidator
          (TestValidationPipeline.addValidator [] vA) vB)).validatorIds = ["a", "b"] := by
  refine ⟨fun validators v => ⟨?_, ?_⟩, fun validators v => ⟨?_, ?_⟩, ?_⟩ <;>
    simp [StringValidationPipeline.getPipelineInfo, StringValidationPipeline.addValidator,
      TestValidationPipeline.getPipelineInfo, TestValidationPipeline.addValidator, vA, vB]

/-- C5: each concrete validator's validate returns a result that is exactly
one of success-with-output or failure-with-error; in the embedding the
result convention is a first-class value and validate is total, so no
exception stands in for an expected failure. -/
theorem validate_returns_exactly_one_outcome :
    ∀ (input : String) (n mn mx : Int) (context : IFlowContext),
      exactlyOneOutcome (emailValidator.validate input context)
      ∧ exactlyOneOutcome ((NumberRangeValidator mn mx).validate n context)
      ∧ exactlyOneOutcome (testValidator.validate input context) :=
  fun _ _ _ _ _ =>
    ⟨flowResult_exactlyOne _, flowResult_exactlyOne _, flowResult_exactlyOne _⟩

/-- C6, counterexample: the validation-result shape does not tie the data
field to the validity flag: a well-typed result value carries data while
isValid is false, refuting the claim for every value of the shape. -/
theorem result_shape_allows_data_without_validity :
    ¬ (∀ r : IFlowValidationResult String, r.data.isSome = true ↔ r.isValid = true) := by
  intro h
  have hv := (h sampleInvalidWithData).mp rfl
  simp [sampleInvalidWithData] at hv

/-- C6, amended: the shape itself permits data without validity, and the
data-present-iff-valid correspondence holds for the result value actually
constructed in the repository's test suite. -/
theorem test_result_data_present_iff_valid :
    (∃ r : IFlowValidationResult String, r.data.isSome = true ∧ r.isValid = false)
    ∧ (testSuiteResult.data.isSome = true ↔ testSuiteResult.isValid = true) :=
  ⟨⟨sampleInvalidWithData, rfl, rfl⟩, by simp [testSuiteResult]⟩

/-- C7: for both schema implementations, getSchemaRules leaves the state it
is handed unchanged and returns the same rules mapping on every call. -/
theorem getSchemaRules_pure_and_constant :
    ∀ {σ : Type} (s t : σ),
      (TestSchema.getSchemaRules s).2 = s
      ∧ (TestSchema.getSchemaRules s).1 = (TestSchema.getSchemaRules t).1
      ∧ (UserSchema.getSchemaRules s).2 = s
      ∧ (UserSchema.getSchemaRules s).1 = (UserSchema.getSchemaRules t).1 :=
  fun _ _ => ⟨rfl, rfl, rfl, rfl⟩

/-- C8: a validation result built with isValid true, populated data, empty
errors and warnings and the three-field metadata block survives the
consumer-side serialization round trip with every field preserved
exactly. -/
theorem validation_result_serialization_round_trip :
    ∀ (d validatorId : String) (et : Option Int) (rules : List String),
      decodeResult (encodeResult
        { isValid := true, data := some d, errors := [], warnings := [],
          metadata := { validatorId := validatorId, executionTime := et,
                        rulesApplied := rules } }) =
      some { isValid := true, data := some d, errors := [], warnings := [],
             metadata := { validatorId := validatorId, executionTime := et,
                           rulesApplied := rules } } := by
  intro d validatorId et rules
  simp [encodeResult, decodeResult, encodeOptionStr, decodeOptionStr, decodeList,
    decodeMetadata_encodeMetadata]

/-- C9: addValidator on a pipeline reference returns the receiver's own
reference, and through either that returned reference or the original one
getPipelineInfo observes the same mutated state: the appended id and the
incremented count. -/
theorem addValidator_returns_receiver_and_mutates_shared_state :
    ∀ (σ : PipelineStore) (r : Nat) (v : IFlowValidator String String),
      (addValidatorRef r v σ).1 = r
      ∧ getPipelineInfoRef (addValidatorRef r v σ).1 (addValidatorRef r v σ).2 =
          getPipelineInfoRef r (addValidatorRef r v σ).2
      ∧ (getPipelineInfoRef r (addValidatorRef r v σ).2).validatorIds =
          (getPipelineInfoRef r σ).validatorIds ++ [v.id]
      ∧ (getPipelineInfoRef r (addValidatorRef r v σ).2).validatorCount =
          (getPipelineInfoRef r σ).validatorCount + 1 := by
  intro σ r v
  refine ⟨rfl, rfl, ?_, ?_⟩ <;>
    simp [addValidatorRef, getPipelineInfoRef]

/-- C10: each concrete validator's validate result depends only on the input
value, never on the context argument. -/
theorem validate_ignores_context :
    ∀ (input : String) (n mn mx : Int) (c1 c2 : IFlowContext),
      emailValidator.validate input c1 = emailValidator.validate input c2
      ∧ (NumberRangeValidator mn mx).validate n c1 = (NumberRangeValidator mn mx).validate n c2
      ∧ testValidator.validate input c1 = testValidator.validate input c2 :=
  fun _ _ _ _ _ _ => ⟨rfl, rfl, rfl⟩

end FlowCoreValidation
